import Mathlib

/-!
Verification development for the ScandEval repository.

Part I embeds the question-answering example preparer (spec §3–§4.1).
The implementation module `scandeval/question_answering.py` is not among
the provided sources (only its unit test is), so the preparer is modelled
from the specification text; the tokenizer is kept abstract as a
capability, exactly as the spec prescribes, and a concrete executable
tokenizer model is provided for the concrete test scenarios.

Part II embeds the backend-selection dispatch of
`src/scandeval/model_loading.py` and the hub functions of
`src/scandeval/hf_hub.py`, translated directly from the Python sources.
-/

namespace ScandEval

/-- Modelled from the spec: `RawExample` of §3 —
`{question, context, answers: {text: sequence of string, answer_start: sequence of integer}}`. -/
structure RawExample where
  question : String
  context : String
  answerTexts : List String
  answerStarts : List Nat
  deriving Repr, DecidableEq

/-- Modelled from the spec: one entry of the per-token offset mapping of a
`TokenizedWindow` (§3): null for special tokens, a question-side character
range for question tokens, a context-side character range for context tokens. -/
inductive TokOffset where
  | special : TokOffset
  | question (s e : Nat) : TokOffset
  | ctx (s e : Nat) : TokOffset
  deriving Repr, DecidableEq

/-- Modelled from the spec: `TokenizedWindow` of §3 — token ids, offset
mapping, and the overflow-to-sample index naming the originating `RawExample`. -/
structure TokenizedWindow where
  inputIds : List Nat
  offsets : List TokOffset
  sampleIdx : Nat
  deriving Repr, DecidableEq

/-- Modelled from the spec: `LabeledWindow` of §3 — a `TokenizedWindow` plus
`start_position` / `end_position` token indices (or both the sentinel). -/
structure LabeledWindow where
  window : TokenizedWindow
  start_position : Nat
  end_position : Nat
  deriving Repr, DecidableEq

/-- Modelled from the spec: the tokenizer capability of §6 — joint
(question, context) tokenization with windowing, returning offset mappings
and overflow-to-sample indices, and exposing the designated context-start
special-token index used as the "no answer" sentinel. Tokenization is
fallible (§4.1 failure semantics). -/
structure TokenizerCapability where
  tokenize : List (String × String) → Except String (List TokenizedWindow)
  sentinel : Nat

/-- The indexed context-side tokens of a window's offset mapping:
`(token index, char_start, char_end)`, in order (spec §4.1 step 5 skips
special/question tokens). -/
def ctxTokens (offs : List TokOffset) : List (Nat × Nat × Nat) :=
  offs.enum.filterMap fun p =>
    match p.2 with
    | .ctx s e => some (p.1, s, e)
    | _ => none

/-- Spec §4.1 step 7, start side: starting from the context-start boundary,
advance inward while the token's `char_start` still lies at or before the
answer's start character; the result is the last token index visited. -/
def scanStart : List (Nat × Nat × Nat) → Nat → Nat → Nat
  | [], _, acc => acc
  | t :: rest, c, acc => if t.2.1 ≤ c then scanStart rest c t.1 else acc

/-- Spec §4.1 step 7, end side: starting from the context-end boundary
(the list is passed reversed), advance inward while the token's `char_end`
still lies at or after the answer's end character. -/
def scanEnd : List (Nat × Nat × Nat) → Nat → Nat → Nat
  | [], _, acc => acc
  | t :: rest, c, acc => if c ≤ t.2.2 then scanEnd rest c t.1 else acc

/-- Modelled from the spec: steps 2–7 of §4.1 applied to one
`TokenizedWindow`, computing the `(start_position, end_position)` pair.
Zero answers, or an answer span not fully inside the window's context
character span, yield the sentinel pair; otherwise the start/end token
positions are narrowed from the context boundaries inward. -/
def labelPositions (sentinel : Nat) (exs : List RawExample)
    (w : TokenizedWindow) : Nat × Nat :=
  match exs.get? w.sampleIdx with
  | none => (sentinel, sentinel)
  | some ex =>
    match ex.answerTexts.head?, ex.answerStarts.head? with
    | some txt, some astart =>
      let aEnd := astart + txt.length
      let cts := ctxTokens w.offsets
      match cts.head?, cts.getLast? with
      | some first, some last =>
        if first.2.1 ≤ astart ∧ aEnd ≤ last.2.2 then
          (scanStart cts astart first.1, scanEnd cts.reverse aEnd last.1)
        else (sentinel, sentinel)
      | _, _ => (sentinel, sentinel)
    | _, _ => (sentinel, sentinel)

/-- The labeled window: the tokenized window together with its computed
start/end positions. -/
def labelWindow (sentinel : Nat) (exs : List RawExample) (w : TokenizedWindow) :
    LabeledWindow :=
  ⟨w, (labelPositions sentinel exs w).1, (labelPositions sentinel exs w).2⟩

/-- Modelled from the spec: `prepare(examples, tokenizer_capability)` of
§4.1 — tokenize the (question, context) pairs of the batch, then label every
produced window; a tokenizer failure propagates unchanged. -/
def prepare (tok : TokenizerCapability) (exs : List RawExample) :
    Except String (List LabeledWindow) :=
  (tok.tokenize (exs.map fun e => (e.question, e.context))).map
    fun ws => ws.map (labelWindow tok.sentinel exs)

/-- Map a labeled token span back through the offset mapping to the
context substring it covers (spec §8, round-trip property). -/
def decodeSpan (context : String) (w : TokenizedWindow) (sp ep : Nat) : String :=
  match w.offsets.get? sp, w.offsets.get? ep with
  | some (.ctx s _), some (.ctx _ e) => ⟨(context.data.drop s).take (e - s)⟩
  | _, _ => ""

/-- The window's own character span: `char_start` of the first context token
and `char_end` of the last one (spec §4.1 step 5), if any context token exists. -/
def windowCharSpan (w : TokenizedWindow) : Option (Nat × Nat) :=
  match (ctxTokens w.offsets).head?, (ctxTokens w.offsets).getLast? with
  | some first, some last => some (first.2.1, last.2.2)
  | _, _ => none

/-! ### A concrete executable tokenizer model

An instance of the tokenizer capability, used to run the concrete scenarios
of spec §8: words are maximal alphanumeric runs, every other non-space
character is its own token (as the fast subword tokenizers in the test
separate punctuation), and over-length contexts are split into overlapping
stride-based windows. -/

/-- Character spans of the tokens of a text: maximal alphanumeric runs and
single punctuation characters, with spaces separating tokens. -/
def tokenSpansGo : List Char → Nat → Option Nat → List (Nat × Nat)
  | [], _, none => []
  | [], i, some st => [(st, i)]
  | c :: rest, i, none =>
    if c = ' ' then tokenSpansGo rest (i + 1) none
    else if c.isAlphanum then tokenSpansGo rest (i + 1) (some i)
    else (i, i + 1) :: tokenSpansGo rest (i + 1) none
  | c :: rest, i, some st =>
    if c = ' ' then (st, i) :: tokenSpansGo rest (i + 1) none
    else if c.isAlphanum then tokenSpansGo rest (i + 1) (some st)
    else (st, i) :: (i, i + 1) :: tokenSpansGo rest (i + 1) none

def tokenSpans (s : String) : List (Nat × Nat) :=
  tokenSpansGo s.data 0 none

/-- Start indices of the sliding windows over `total` context tokens:
each window holds up to `capacity` tokens and consecutive windows start
`step` tokens apart, until one window reaches the end. -/
def chunkStartsGo (total capacity step : Nat) : Nat → Nat → List Nat
  | _, 0 => []
  | s, fuel + 1 =>
    if s + capacity < total then s :: chunkStartsGo total capacity step (s + step) fuel
    else [s]

def chunkStarts (total capacity step : Nat) : List Nat :=
  chunkStartsGo total capacity step 0 (total + 1)

/-- Tokenize one (question, context) pair into windows laid out as
`[CLS] question-tokens [SEP] context-chunk [SEP]`; the context-start special
token `[CLS]` sits at index 0. -/
def mkWindows (maxLen stride sampleIdx : Nat) (q c : String) :
    List TokenizedWindow :=
  let qs := tokenSpans q
  let cs := tokenSpans c
  let capacity := maxLen - (qs.length + 3)
  (chunkStarts cs.length capacity (capacity - stride)).map fun st =>
    let chunk := (cs.drop st).take capacity
    { inputIds := List.replicate (qs.length + chunk.length + 3) 0
      offsets := TokOffset.special ::
        (qs.map fun p => TokOffset.question p.1 p.2) ++
        TokOffset.special ::
        (chunk.map fun p => TokOffset.ctx p.1 p.2) ++
        [TokOffset.special]
      sampleIdx := sampleIdx }

/-- A concrete tokenizer capability with maximum window length `maxLen` and
stride `stride`; its "no answer" sentinel is the `[CLS]` index 0. -/
def modelTokenizer (maxLen stride : Nat) : TokenizerCapability where
  tokenize pairs :=
    .ok (pairs.enum.map (fun p => mkWindows maxLen stride p.1 p.2.1 p.2.2)).flatten
  sentinel := 0

/-- A tokenizer capability returning a fixed window list (or failing),
for exercising the preparer on explicit windows. -/
def constTokenizer (r : Except String (List TokenizedWindow)) (sent : Nat) :
    TokenizerCapability where
  tokenize _ := r
  sentinel := sent

/-! ## Part II: model loading dispatch and Hugging Face Hub functions

Translated from `src/scandeval/model_loading.py` and
`src/scandeval/hf_hub.py`. -/

/-- A language, as used by `hf_hub.py`: the repository's `languages` module
is not among the provided sources, but `hf_hub.py` only ever reads a
language's `code` (hub tag) and `name`. -/
structure Language where
  code : String
  name : String
  deriving Repr, DecidableEq

/-- `ModelConfig` as constructed by `get_model_config` in `hf_hub.py`. -/
structure ModelConfig where
  model_id : String
  framework : String
  task : String
  languages : List Language
  revision : String
  deriving Repr, DecidableEq

/-- The hub metadata of one model, as read by `hf_hub.py`: its ID, its
tags, and its optional pipeline tag. -/
structure HubModel where
  modelId : String
  tags : List String
  pipeline_tag : Option String
  deriving Repr, DecidableEq

/-- The exceptions `get_model_config` can raise (`exceptions.py` is not in
the sources; only the constructors used in `hf_hub.py` are modelled), plus
Python's `ValueError` from unpacking a two-variable split of an ID holding
more than one `/`. -/
inductive BenchError where
  | invalidBenchmark (msg : String) : BenchError
  | huggingFaceHubDown : BenchError
  | noInternetConnection : BenchError
  | valueError : BenchError
  deriving Repr, DecidableEq

/-- Python's `str.startswith`, examined on the character list. -/
def strStartsWith (s p : String) : Bool := p.data.isPrefixOf s.data

/-- `get_model_config` of `hf_hub.py` (lines 21–128). The hub call
`api.list_models` is abstracted as a fallible function of the author and
model name (an error is a `RequestException`); `get_all_languages()` is
abstracted as the association list `language_mapping`;
`internet_connection_available()` as a boolean. -/
def get_model_config (model_id : String)
    (api_list_models : Option String → String → Except Unit (List HubModel))
    (language_mapping : List (String × Language))
    (internet_connection_available : Bool) : Except BenchError ModelConfig :=
  -- If the model ID specifies a random ID, then return a hardcoded metadata
  -- dictionary
  if strStartsWith model_id "random" then
    .ok { model_id := model_id, framework := "pytorch", task := "fill-mask",
          languages := [], revision := "main" }
  else
    -- Extract the revision from the model ID, if it is specified
    let (model_id_without_revision, revision) :=
      match model_id.splitOn "@" with
      | [] => (model_id, "main")
      | [m] => (m, "main")
      | m :: rest => (m, "@".intercalate rest)
    -- Extract the author and model name from the model ID
    let fetch : Option String → String → Except BenchError ModelConfig :=
      fun author model_name =>
        match api_list_models author model_name with
        | .error _ =>
          .error (if internet_connection_available then .huggingFaceHubDown
                  else .noInternetConnection)
        | .ok models =>
          match models.filter (fun m => m.modelId == model_id_without_revision) with
          | [] =>
            .error (.invalidBenchmark
              ("The model " ++ model_id ++ " does not exist on the Hugging Face Hub."))
          | m :: _ =>
            let tags := m.tags
            -- Extract the framework, which defaults to PyTorch
            let frameworkE : Except BenchError String :=
              if tags.contains "pytorch" then .ok "pytorch"
              else if tags.contains "jax" then .ok "jax"
              else if tags.contains "spacy" then
                .error (.invalidBenchmark "SpaCy models are not supported.")
              else if tags.contains "tf" || tags.contains "tensorflow" ||
                  tags.contains "keras" then
                .error (.invalidBenchmark "TensorFlow/Keras models are not supported.")
              else .ok "pytorch"
            frameworkE.bind fun framework =>
              -- Extract the model task, which defaults to fill-mask
              let model_task := m.pipeline_tag.getD "fill-mask"
              .ok { model_id := m.modelId, framework := framework,
                    task := model_task,
                    languages := tags.filterMap (fun t => language_mapping.lookup t),
                    revision := revision }
    match model_id_without_revision.splitOn "/" with
    | [m] => fetch none m
    | [a, m] => fetch (some a) m
    | _ => .error .valueError

/-- The model setup classes imported by `model_loading.py`. -/
inductive ModelSetup where
  | FreshModelSetup : ModelSetup
  | HFModelSetup : ModelSetup
  | LocalModelSetup : ModelSetup
  | OpenAIModelSetup : ModelSetup
  deriving Repr, DecidableEq

/-- The model configuration as seen by `load_model`: the enumerated
`model_type` tag drives dispatch; the remaining fields are carried along. -/
structure LoaderModelConfig where
  model_id : String
  revision : String
  model_type : String
  deriving Repr, DecidableEq

/-- The dictionary `model_type_to_model_setup_mapping` built in
`load_model` (`model_loading.py` lines 36–41). -/
def model_type_to_model_setup_mapping : List (String × ModelSetup) :=
  [("fresh", .FreshModelSetup), ("hf", .HFModelSetup),
   ("local", .LocalModelSetup), ("openai", .OpenAIModelSetup)]

/-- The setup-class selection of `load_model` (`model_loading.py` line 42):
a dictionary lookup keyed by the configuration's `model_type` tag. A
missing key is Python's `KeyError`, `none` here. -/
def load_model_setup (model_config : LoaderModelConfig) : Option ModelSetup :=
  model_type_to_model_setup_mapping.lookup model_config.model_type

/-! ### `get_model_lists` (`hf_hub.py` lines 132–280)

The dictionary of model lists is modelled as a total function from keys to
lists, with the `defaultdict` default `[]`. -/

/-- The language constants imported by `hf_hub.py` from the repository's
`languages` module (not among the sources); `hf_hub.py` stores their lists
under the keys `"da"`, `"sv"` and `"no"`, fixing the codes. -/
def DA : Language := ⟨"da", "Danish"⟩

def SV : Language := ⟨"sv", "Swedish"⟩

def NO : Language := ⟨"no", "Norwegian"⟩

def NB : Language := ⟨"nb", "Norwegian Bokmål"⟩

def NN : Language := ⟨"nn", "Norwegian Nynorsk"⟩

/-- `defaultdict(list)`: every key starts at the empty list. -/
def emptyModelLists : String → List String := fun _ => []

/-- `model_lists[k].extend(v)` on the dictionary model. -/
def extendKey (d : String → List String) (k : String) (v : List String) :
    String → List String :=
  fun k2 => if k2 = k then d k ++ v else d k2

/-- `model_lists[k] = v` on the dictionary model. -/
def setKey (d : String → List String) (k : String) (v : List String) :
    String → List String :=
  fun k2 => if k2 = k then v else d k2

/-- The per-language fetch loop of `get_model_lists` (lines 193–214): for
each language, fetch the hub's model list, keep models tagged with the
language, and extend the `"all"` list and the language's own list. -/
def modelListsLoop (api : Option Language → List HubModel) :
    List (Option Language) → (String → List String) → (String → List String)
  | [], d => d
  | language :: rest, d =>
    let models := (api language).filter fun m =>
      match language with
      | none => true
      | some lang => m.tags.contains lang.code
    let model_ids := models.map (·.modelId)
    let d := extendKey d "all" model_ids
    let d := match language with
      | none => d
      | some lang => extendKey d lang.code model_ids
    modelListsLoop api rest d

/-- The hardcoded multilingual models (lines 217–227). -/
def multi_models : List String :=
  ["xlm-roberta-large",
   "Peltarion/xlm-roberta-longformer-base-4096",
   "microsoft/xlm-align-base",
   "microsoft/infoxlm-base",
   "microsoft/infoxlm-large",
   "bert-base-multilingual-cased",
   "bert-base-multilingual-uncased",
   "distilbert-base-multilingual-cased",
   "cardiffnlp/twitter-xlm-roberta-base"]

/-- The hardcoded random models (lines 232–237). -/
def random_models : List String :=
  ["random-xlmr-base-sequence-clf",
   "random-xlmr-base-token-clf",
   "random-electra-small-sequence-clf",
   "random-electra-small-token-clf"]

/-- The hardcoded multilingual Danish models (lines 244–251). -/
def multi_da_models : List String :=
  ["Geotrend/bert-base-en-da-cased",
   "Geotrend/bert-base-25lang-cased",
   "Geotrend/bert-base-en-fr-de-no-da-cased",
   "Geotrend/distilbert-base-en-da-cased",
   "Geotrend/distilbert-base-25lang-cased",
   "Geotrend/distilbert-base-en-fr-de-no-da-cased"]

/-- The hardcoded multilingual Swedish models (line 258). -/
def multi_sv_models : List String := []

/-- The hardcoded multilingual Norwegian models (lines 265–272). -/
def multi_no_models : List String :=
  ["Geotrend/bert-base-en-no-cased",
   "Geotrend/bert-base-25lang-cased",
   "Geotrend/bert-base-en-fr-de-no-da-cased",
   "Geotrend/distilbert-base-en-no-cased",
   "Geotrend/distilbert-base-25lang-cased",
   "Geotrend/distilbert-base-en-fr-de-no-da-cased"]

/-- Whether two language lists carry the same set of codes
(`{lang.code for lang in xs} == {lang.code for lang in ys}`). -/
def sameCodes (xs ys : List Language) : Bool :=
  xs.all (fun l => ys.any (fun a => a.code == l.code)) &&
    ys.all (fun l => xs.any (fun a => a.code == l.code))

/-- The language iterator of `get_model_lists` (lines 154–191): the chosen
languages (sorted by name when more than one), or the single entry `none`
when they cover all language codes. -/
def languageItr (all_languages : List Language)
    (languages : Option (List Language)) : List (Option Language) :=
  let language_list := languages.getD all_languages
  let language_list :=
    if language_list.length = 1 then language_list
    else language_list.mergeSort fun a b => a.name ≤ b.name
  if sameCodes language_list all_languages then [none]
  else language_list.map some

/-- The hardcoded additions after the fetch loop of `get_model_lists`
(lines 216–274): multilingual models, random models, and the extra
Danish/Swedish/Norwegian models when those languages were iterated. -/
def postLoopAdditions (language_itr : List (Option Language))
    (d : String → List String) : String → List String :=
  let d := setKey d "multilingual" multi_models
  let d := extendKey d "all" multi_models
  let d := extendKey d "random" random_models
  let d := extendKey d "all" random_models
  let d :=
    if language_itr.contains (some DA) then
      extendKey (extendKey d "da" multi_da_models) "all" multi_da_models
    else d
  let d :=
    if language_itr.contains (some SV) then
      extendKey (extendKey d "sv" multi_sv_models) "all" multi_sv_models
    else d
  if [NO, NB, NN].any (fun l => language_itr.contains (some l)) then
    extendKey (extendKey d "no" multi_no_models) "all" multi_no_models
  else d

/-- The model-list dictionary before the final duplicate removal. -/
def modelListsDict (api : Option Language → List HubModel)
    (all_languages : List Language) (languages : Option (List Language)) :
    String → List String :=
  postLoopAdditions (languageItr all_languages languages)
    (modelListsLoop api (languageItr all_languages languages) emptyModelLists)

/-- `get_model_lists` of `hf_hub.py`: `api` abstracts `api.list_models`
(returning the hub's models for an optional language filter);
`all_languages` abstracts `get_all_languages().values()`. The final
`list(set(...))` duplicate removal is modelled by `dedup` (Python's set
order is unspecified; only membership and duplicate-freedom are used). -/
def get_model_lists (api : Option Language → List HubModel)
    (all_languages : List Language) (languages : Option (List Language)) :
    String → List String :=
  fun k => (modelListsDict api all_languages languages k).dedup

/-! ### Concrete scenario data (test_question_answering.py, spec §8) -/

/-- The single-window scenario: question "Hvad er hovedstaden i Sverige?",
context "Sveriges hovedstad er Stockholm.", answer "Stockholm" at 22. -/
def svEx : RawExample :=
  { question := "Hvad er hovedstaden i Sverige?"
    context := "Sveriges hovedstad er Stockholm."
    answerTexts := ["Stockholm"]
    answerStarts := [22] }

/-- The context of `svEx` repeated 100 times. -/
def ctx100 : String := String.join (List.replicate 100 "Sveriges hovedstad er Stockholm.")

/-- The multi-window scenario: the same question over the 100-fold context,
answer "Sverige" at character offset 0. -/
def svEx100 : RawExample :=
  { question := "Hvad er hovedstaden i Sverige?"
    context := ctx100
    answerTexts := ["Sverige"]
    answerStarts := [0] }

/-- A small fixed window over a three-character context, for witnesses. -/
def witWindow : TokenizedWindow :=
  { inputIds := [0, 0, 0], offsets := [.special, .ctx 0 3, .special], sampleIdx := 0 }

/-- An answerless example over the same context. -/
def witNoAnswerEx : RawExample :=
  { question := "q", context := "abc", answerTexts := [], answerStarts := [] }

/-! ## Helper lemmas -/

theorem labelWindow_window (s : Nat) (exs : List RawExample) (w : TokenizedWindow) :
    (labelWindow s exs w).window = w := rfl

theorem prepare_eq_ok {tok : TokenizerCapability} {exs : List RawExample}
    {lws : List LabeledWindow} (hp : prepare tok exs = .ok lws) :
    ∃ ws, tok.tokenize (exs.map fun e => (e.question, e.context)) = .ok ws ∧
      lws = ws.map (labelWindow tok.sentinel exs) := by
  unfold prepare at hp
  cases htok : tok.tokenize (exs.map fun e => (e.question, e.context)) with
  | error e => rw [htok] at hp; simp [Except.map] at hp
  | ok ws =>
    rw [htok] at hp
    simp [Except.map] at hp
    exact ⟨ws, rfl, hp.symm⟩

/-! ## Claims -/

/-- C1: for every `RawExample` with zero answers, every `LabeledWindow` that
`prepare` produces from it has `start_position` equal to `end_position`
equal to the context-start sentinel token index. -/
theorem prepare_no_answers_sentinel (tok : TokenizerCapability)
    (exs : List RawExample) (lws : List LabeledWindow)
    (hp : prepare tok exs = .ok lws) (lw : LabeledWindow) (hmem : lw ∈ lws)
    (ex : RawExample) (hex : exs.get? lw.window.sampleIdx = some ex)
    (ht : ex.answerTexts = []) (_hs : ex.answerStarts = []) :
    lw.start_position = tok.sentinel ∧ lw.end_position = tok.sentinel := by
  obtain ⟨ws, htok, rfl⟩ := prepare_eq_ok hp
  rw [List.mem_map] at hmem
  obtain ⟨w, hw, rfl⟩ := hmem
  rw [labelWindow_window] at hex
  have hpos : labelPositions tok.sentinel exs w = (tok.sentinel, tok.sentinel) := by
    unfold labelPositions
    rw [hex]
    dsimp only
    rw [ht]
    rfl
  unfold labelWindow
  rw [hpos]
  exact ⟨rfl, rfl⟩

/-- Closed witness for C1 at a concrete answerless example. -/
theorem prepare_no_answers_sentinel_witness :
    (⟨witWindow, 0, 0⟩ : LabeledWindow).start_position =
        (constTokenizer (.ok [witWindow]) 0).sentinel ∧
      (⟨witWindow, 0, 0⟩ : LabeledWindow).end_position =
        (constTokenizer (.ok [witWindow]) 0).sentinel :=
  prepare_no_answers_sentinel (constTokenizer (.ok [witWindow]) 0) [witNoAnswerEx]
    [⟨witWindow, 0, 0⟩] rfl ⟨witWindow, 0, 0⟩ (List.mem_singleton.mpr rfl)
    witNoAnswerEx rfl rfl rfl

/-- C5: `prepare` is deterministic — two calls on the same batch with the
same tokenizer capability yield identical output. -/
theorem prepare_deterministic (tok : TokenizerCapability)
    (batch1 batch2 : List RawExample) (h : batch1 = batch2) :
    prepare tok batch1 = prepare tok batch2 := by rw [h]

/-- Closed witness for C5 at the concrete single-window scenario. -/
theorem prepare_deterministic_witness :
    prepare (modelTokenizer 512 128) [svEx] = prepare (modelTokenizer 512 128) [svEx] :=
  prepare_deterministic (modelTokenizer 512 128) [svEx] [svEx] rfl

/-- C6: a tokenizer failure on a batch propagates out of `prepare`
unchanged, with no partial output; a successful tokenization yields a
successful result labeling every produced window. -/
theorem prepare_error_propagation :
    (∀ (tok : TokenizerCapability) (exs : List RawExample) (msg : String),
        tok.tokenize (exs.map fun e => (e.question, e.context)) = .error msg →
        prepare tok exs = .error msg) ∧
    (∀ (tok : TokenizerCapability) (exs : List RawExample)
        (ws : List TokenizedWindow),
        tok.tokenize (exs.map fun e => (e.question, e.context)) = .ok ws →
        prepare tok exs = .ok (ws.map (labelWindow tok.sentinel exs))) := by
  constructor
  · intro tok exs msg h; unfold prepare; rw [h]; rfl
  · intro tok exs ws h; unfold prepare; rw [h]; rfl

/-- Closed witness for C6: a failing tokenizer's error is returned as is,
and a succeeding tokenizer yields the labeled windows. -/
theorem prepare_error_propagation_witness :
    prepare (constTokenizer (.error "bad input") 0) [witNoAnswerEx] =
        .error "bad input" ∧
      prepare (constTokenizer (.ok [witWindow]) 0) [witNoAnswerEx] =
        .ok ([witWindow].map (labelWindow 0 [witNoAnswerEx])) :=
  ⟨prepare_error_propagation.1 (constTokenizer (.error "bad input") 0)
      [witNoAnswerEx] "bad input" rfl,
    prepare_error_propagation.2 (constTokenizer (.ok [witWindow]) 0)
      [witNoAnswerEx] [witWindow] rfl⟩

/-- C2: an example whose tokenization fits in a single window yields exactly
one `LabeledWindow`; concretely, the question "Hvad er hovedstaden i
Sverige?" over "Sveriges hovedstad er Stockholm." with answer "Stockholm"
at 22 yields exactly one window, whose labeled span decodes to
"Stockholm". -/
theorem prepare_single_window :
    (∀ (tok : TokenizerCapability) (exs : List RawExample)
        (ws : List TokenizedWindow) (lws : List LabeledWindow) (i : Nat),
        tok.tokenize (exs.map fun e => (e.question, e.context)) = .ok ws →
        prepare tok exs = .ok lws →
        (ws.countP fun w => w.sampleIdx == i) = 1 →
        (lws.countP fun lw => lw.window.sampleIdx == i) = 1) ∧
    ((prepare (modelTokenizer 512 128) [svEx]).map (fun lws =>
        lws.map fun lw =>
          decodeSpan svEx.context lw.window lw.start_position lw.end_position)).toOption
      = some ["Stockholm"] := by
  constructor
  · intro tok exs ws lws i htok hp hcount
    obtain ⟨ws', htok', rfl⟩ := prepare_eq_ok hp
    rw [htok] at htok'
    cases htok'
    rw [List.countP_map]
    exact hcount
  · decide

/-- Closed witness for C2's universal part at the concrete scenario. -/
theorem prepare_single_window_witness :
    (((prepare (modelTokenizer 512 128) [svEx]).toOption.getD []).countP fun lw =>
      lw.window.sampleIdx == 0) = 1 := by
  have h := prepare_single_window.1 (modelTokenizer 512 128) [svEx]
    (((modelTokenizer 512 128).tokenize [(svEx.question, svEx.context)]).toOption.getD [])
    (((prepare (modelTokenizer 512 128) [svEx]).toOption.getD []))
    0 rfl rfl (by decide)
  exact h

/-- Two batches agreeing on questions, contexts, and the first listed
answer of every example (text and start offset). -/
def FirstAnswerAgree (exs1 exs2 : List RawExample) : Prop :=
  List.Forall₂ (fun a b => a.question = b.question ∧ a.context = b.context ∧
    a.answerTexts.head? = b.answerTexts.head? ∧
    a.answerStarts.head? = b.answerStarts.head?) exs1 exs2

theorem forall2_get?_rel {R : RawExample → RawExample → Prop} :
    ∀ {l1 l2 : List RawExample}, List.Forall₂ R l1 l2 → ∀ i : Nat,
      (l1.get? i = none ∧ l2.get? i = none) ∨
        ∃ a b, l1.get? i = some a ∧ l2.get? i = some b ∧ R a b := by
  intro l1 l2 h
  induction h with
  | nil => intro i; exact Or.inl ⟨rfl, rfl⟩
  | cons hab _ ih =>
    intro i
    cases i with
    | zero => exact Or.inr ⟨_, _, rfl, rfl, hab⟩
    | succ n => exact ih n

theorem labelPositions_first_answer (s : Nat) {exs1 exs2 : List RawExample}
    (h : FirstAnswerAgree exs1 exs2) (w : TokenizedWindow) :
    labelPositions s exs1 w = labelPositions s exs2 w := by
  rcases forall2_get?_rel h w.sampleIdx with ⟨h1, h2⟩ |
    ⟨a, b, h1, h2, _, _, hT, hS⟩
  · unfold labelPositions; rw [h1, h2]
  · unfold labelPositions
    rw [h1, h2]
    dsimp only
    rw [hT, hS]

/-- C7: the labels `prepare` computes depend only on each example's first
listed answer; answers after the first never affect any produced
`LabeledWindow`. -/
theorem prepare_first_answer_only (tok : TokenizerCapability)
    (exs1 exs2 : List RawExample) (h : FirstAnswerAgree exs1 exs2) :
    prepare tok exs1 = prepare tok exs2 := by
  have hqc : (exs1.map fun e => (e.question, e.context)) =
      exs2.map fun e => (e.question, e.context) := by
    induction h with
    | nil => rfl
    | cons hab _ ih => simp [hab.1, hab.2.1, ih]
  have hlab : labelWindow tok.sentinel exs1 = labelWindow tok.sentinel exs2 :=
    funext fun w => by
      unfold labelWindow
      rw [labelPositions_first_answer tok.sentinel h w]
  unfold prepare
  rw [hqc, hlab]

/-- Closed witness for C7: adding a second answer leaves the output
unchanged. -/
theorem prepare_first_answer_only_witness :
    prepare (modelTokenizer 512 128)
        [{ svEx with answerTexts := ["Stockholm", "Sverige"],
                     answerStarts := [22, 0] }] =
      prepare (modelTokenizer 512 128) [svEx] :=
  prepare_first_answer_only (modelTokenizer 512 128) _ _
    (List.Forall₂.cons ⟨rfl, rfl, rfl, rfl⟩ List.Forall₂.nil)

set_option maxRecDepth 100000

/-- C3: a produced window whose context character span does not fully
contain the first answer's character span is labeled with the sentinel on
both positions; concretely, over the 100-fold repeated context with the
answer at offset 0, six windows are produced and exactly the one whose
character range contains the answer span at offset 0 carries a
non-sentinel label (the sentinel being index 0). -/
theorem prepare_answer_outside_window_sentinel :
    (∀ (tok : TokenizerCapability) (exs : List RawExample)
        (lws : List LabeledWindow) (lw : LabeledWindow) (ex : RawExample)
        (txt : String) (astart a b : Nat),
        prepare tok exs = .ok lws → lw ∈ lws →
        exs.get? lw.window.sampleIdx = some ex →
        ex.answerTexts.head? = some txt → ex.answerStarts.head? = some astart →
        windowCharSpan lw.window = some (a, b) →
        ¬(a ≤ astart ∧ astart + txt.length ≤ b) →
        lw.start_position = tok.sentinel ∧ lw.end_position = tok.sentinel) ∧
    ((prepare (modelTokenizer 128 32) [svEx100]).map (fun lws =>
        lws.map fun lw =>
          (windowCharSpan lw.window, lw.start_position, lw.end_position))).toOption
      = some [(some (0, 767), 8, 8),
          (some (563, 1320), 0, 0),
          (some (1119, 1877), 0, 0),
          (some (1673, 2432), 0, 0),
          (some (2230, 2994), 0, 0),
          (some (2784, 3200), 0, 0)] := by
  constructor
  · intro tok exs lws lw ex txt astart a b hp hmem hex hT hS hspan hout
    obtain ⟨ws, htok, rfl⟩ := prepare_eq_ok hp
    rw [List.mem_map] at hmem
    obtain ⟨w, hw, rfl⟩ := hmem
    rw [labelWindow_window] at hex hspan
    have hpos : labelPositions tok.sentinel exs w = (tok.sentinel, tok.sentinel) := by
      unfold labelPositions
      rw [hex]
      dsimp only
      rw [hT, hS]
      dsimp only
      unfold windowCharSpan at hspan
      cases hh : (ctxTokens w.offsets).head? with
      | none => rw [hh] at hspan
      | some first =>
        cases hl : (ctxTokens w.offsets).getLast? with
        | none => rw [hh, hl] at hspan
        | some last =>
          rw [hh, hl] at hspan
          dsimp only at hspan
          injection hspan with hspan
          have ha : first.2.1 = a := congrArg Prod.fst hspan
          have hb : last.2.2 = b := congrArg Prod.snd hspan
          dsimp only
          rw [ha, hb, if_neg hout]
    unfold labelWindow
    rw [hpos]
    exact ⟨rfl, rfl⟩
  · decide

/-- A fixed window and example with the answer outside the window's span,
for the C3 witness. -/
def witOutsideEx : RawExample :=
  { question := "q", context := "abcdefgh", answerTexts := ["fg"], answerStarts := [5] }

/-- Closed witness for C3's universal part: a window spanning characters
`[0, 3)` with the answer at `[5, 7)` is labeled with the sentinel. -/
theorem prepare_answer_outside_window_sentinel_witness :
    (⟨witWindow, 0, 0⟩ : LabeledWindow).start_position =
        (constTokenizer (.ok [witWindow]) 0).sentinel ∧
      (⟨witWindow, 0, 0⟩ : LabeledWindow).end_position =
        (constTokenizer (.ok [witWindow]) 0).sentinel :=
  prepare_answer_outside_window_sentinel.1 (constTokenizer (.ok [witWindow]) 0)
    [witOutsideEx] [⟨witWindow, 0, 0⟩] ⟨witWindow, 0, 0⟩ witOutsideEx
    "fg" 5 0 3 rfl (List.mem_singleton.mpr rfl) rfl rfl rfl rfl (by decide)

theorem ctxTokens_mem {offs : List TokOffset} {i s e : Nat}
    (h : (i, s, e) ∈ ctxTokens offs) : offs.get? i = some (.ctx s e) := by
  unfold ctxTokens at h
  rw [List.mem_filterMap] at h
  obtain ⟨⟨j, o⟩, hmem, hmatch⟩ := h
  cases o with
  | special => cases hmatch
  | question s' e' => cases hmatch
  | ctx s' e' =>
    dsimp only at hmatch
    injection hmatch with hmatch
    rw [Prod.mk.injEq, Prod.mk.injEq] at hmatch
    obtain ⟨rfl, rfl, rfl⟩ := hmatch
    rw [List.get?_eq_getElem?]
    exact List.mk_mem_enum_iff_getElem?.mp hmem

theorem mem_of_head?_eq {α : Type} {l : List α} {a : α} (h : l.head? = some a) :
    a ∈ l :=
  List.mem_of_mem_head? (by rw [h]; rfl)

theorem mem_of_getLast?_eq {α : Type} {l : List α} {a : α}
    (h : l.getLast? = some a) : a ∈ l := by
  obtain ⟨hne, rfl⟩ := List.mem_getLast?_eq_getLast
    (show a ∈ l.getLast? by rw [h]; rfl)
  exact List.getLast_mem hne

theorem scanStart_spec (cts0 : List (Nat × Nat × Nat)) (c : Nat) :
    ∀ (l : List (Nat × Nat × Nat)) (acc : Nat),
      (∀ x ∈ l, x ∈ cts0) →
      (∃ s e, (acc, s, e) ∈ cts0 ∧ s ≤ c) →
      ∃ s e, (scanStart l c acc, s, e) ∈ cts0 ∧ s ≤ c := by
  intro l
  induction l with
  | nil => intro acc _ hacc; exact hacc
  | cons t rest ih =>
    intro acc hsub hacc
    unfold scanStart
    by_cases h : t.2.1 ≤ c
    · rw [if_pos h]
      exact ih t.1 (fun x hx => hsub x (List.mem_cons_of_mem _ hx))
        ⟨t.2.1, t.2.2, hsub t (List.mem_cons_self _ _), h⟩
    · rw [if_neg h]
      exact hacc

theorem scanEnd_spec (cts0 : List (Nat × Nat × Nat)) (c : Nat) :
    ∀ (l : List (Nat × Nat × Nat)) (acc : Nat),
      (∀ x ∈ l, x ∈ cts0) →
      (∃ s e, (acc, s, e) ∈ cts0 ∧ c ≤ e) →
      ∃ s e, (scanEnd l c acc, s, e) ∈ cts0 ∧ c ≤ e := by
  intro l
  induction l with
  | nil => intro acc _ hacc; exact hacc
  | cons t rest ih =>
    intro acc hsub hacc
    unfold scanEnd
    by_cases h : c ≤ t.2.2
    · rw [if_pos h]
      exact ih t.1 (fun x hx => hsub x (List.mem_cons_of_mem _ hx))
        ⟨t.2.1, t.2.2, hsub t (List.mem_cons_self _ _), h⟩
    · rw [if_neg h]
      exact hacc

theorem slice_isInfix {α : Type} (l : List α) (cs a b ce : Nat)
    (h1 : cs ≤ a) (h2 : a ≤ b) (h3 : b ≤ ce) :
    (l.drop a).take (b - a) <:+: (l.drop cs).take (ce - cs) := by
  refine ⟨(l.drop cs).take (a - cs), (l.drop b).take (ce - b), ?_⟩
  have e1 : ce - cs = (a - cs) + ((b - a) + (ce - b)) := by omega
  rw [e1, List.take_add, List.take_add, List.drop_drop, List.drop_drop]
  have e2 : cs + (a - cs) = a := by omega
  have e3 : a + (b - a) = b := by omega
  rw [e2, e3, List.append_assoc]

/-- C4: round-trip — for every produced `LabeledWindow` whose positions are
not the sentinel, mapping the labeled token span back through the offset
mapping yields a character substring of the context containing the original
answer text. -/
theorem prepare_roundtrip_contains_answer (tok : TokenizerCapability)
    (exs : List RawExample) (lws : List LabeledWindow) (lw : LabeledWindow)
    (ex : RawExample) (txt : String) (astart : Nat)
    (hp : prepare tok exs = .ok lws) (hmem : lw ∈ lws)
    (hex : exs.get? lw.window.sampleIdx = some ex)
    (hT : ex.answerTexts.head? = some txt)
    (hS : ex.answerStarts.head? = some astart)
    (hwf : (ex.context.data.drop astart).take txt.length = txt.data)
    (hns : lw.start_position ≠ tok.sentinel)
    (hne : lw.end_position ≠ tok.sentinel) :
    txt.data <:+:
      (decodeSpan ex.context lw.window lw.start_position lw.end_position).data := by
  obtain ⟨ws, htok, rfl⟩ := prepare_eq_ok hp
  rw [List.mem_map] at hmem
  obtain ⟨w, hw, rfl⟩ := hmem
  rw [labelWindow_window] at hex
  have hinv : labelPositions tok.sentinel exs w = (tok.sentinel, tok.sentinel) ∨
      ∃ first last, (ctxTokens w.offsets).head? = some first ∧
        (ctxTokens w.offsets).getLast? = some last ∧
        first.2.1 ≤ astart ∧ astart + txt.length ≤ last.2.2 ∧
        labelPositions tok.sentinel exs w =
          (scanStart (ctxTokens w.offsets) astart first.1,
            scanEnd (ctxTokens w.offsets).reverse (astart + txt.length) last.1) := by
    unfold labelPositions
    rw [hex]
    dsimp only
    rw [hT, hS]
    dsimp only
    cases hh : (ctxTokens w.offsets).head? with
    | none => exact Or.inl rfl
    | some first =>
      cases hl : (ctxTokens w.offsets).getLast? with
      | none => exact Or.inl rfl
      | some last =>
        dsimp only
        by_cases hg : first.2.1 ≤ astart ∧ astart + txt.length ≤ last.2.2
        · rw [if_pos hg]
          exact Or.inr ⟨first, last, rfl, rfl, hg.1, hg.2, rfl⟩
        · rw [if_neg hg]
          exact Or.inl rfl
  rcases hinv with hpos | ⟨first, last, hh, hl, hg1, hg2, hpos⟩
  · exact absurd (congrArg Prod.fst hpos) hns
  · obtain ⟨s1, e1, hsp_mem, hsp_le⟩ :=
      scanStart_spec (ctxTokens w.offsets) astart (ctxTokens w.offsets) first.1
        (fun x hx => hx) ⟨first.2.1, first.2.2, mem_of_head?_eq hh, hg1⟩
    obtain ⟨s2, e2, hep_mem, hep_le⟩ :=
      scanEnd_spec (ctxTokens w.offsets) (astart + txt.length)
        (ctxTokens w.offsets).reverse last.1
        (fun x hx => List.mem_reverse.mp hx)
        ⟨last.2.1, last.2.2, mem_of_getLast?_eq hl, hg2⟩
    have hsp_get := ctxTokens_mem hsp_mem
    have hep_get := ctxTokens_mem hep_mem
    show txt.data <:+:
      (decodeSpan ex.context w (labelPositions tok.sentinel exs w).1
        (labelPositions tok.sentinel exs w).2).data
    rw [hpos]
    unfold decodeSpan
    dsimp only
    rw [hsp_get, hep_get]
    dsimp only
    have := slice_isInfix ex.context.data s1 astart (astart + txt.length) e2
      hsp_le (Nat.le_add_right _ _) hep_le
    rw [Nat.add_sub_cancel_left, hwf] at this
    exact this

/-- The single window the concrete tokenizer produces for `svEx`. -/
def svWindow : TokenizedWindow :=
  { inputIds := List.replicate 14 0
    offsets := [.special, .question 0 4, .question 5 7, .question 8 19,
      .question 20 21, .question 22 29, .question 29 30, .special,
      .ctx 0 8, .ctx 9 18, .ctx 19 21, .ctx 22 31, .ctx 31 32, .special]
    sampleIdx := 0 }

/-- Closed witness for C4 at the concrete single-window scenario: the
labeled span of `svEx` covers "Stockholm". -/
theorem prepare_roundtrip_contains_answer_witness :
    "Stockholm".data <:+:
      (decodeSpan svEx.context (⟨svWindow, 11, 11⟩ : LabeledWindow).window
        (⟨svWindow, 11, 11⟩ : LabeledWindow).start_position
        (⟨svWindow, 11, 11⟩ : LabeledWindow).end_position).data :=
  prepare_roundtrip_contains_answer (modelTokenizer 512 128) [svEx]
    [⟨svWindow, 11, 11⟩] ⟨svWindow, 11, 11⟩ svEx "Stockholm" 22
    rfl (List.mem_singleton.mpr rfl) rfl rfl rfl (by decide)
    (by decide) (by decide)

/-- C8: `load_model` selects the backend setup purely by the enumerated
`model_type` tag of the configuration: exactly the tags "fresh", "hf",
"local" and "openai" map to the four setup classes, any other tag selects
nothing (`KeyError`), and two configurations with the same tag always
select the same setup — no inspection of any other field. -/
theorem load_model_setup_dispatch :
    (∀ mc : LoaderModelConfig, mc.model_type = "fresh" →
        load_model_setup mc = some .FreshModelSetup) ∧
    (∀ mc : LoaderModelConfig, mc.model_type = "hf" →
        load_model_setup mc = some .HFModelSetup) ∧
    (∀ mc : LoaderModelConfig, mc.model_type = "local" →
        load_model_setup mc = some .LocalModelSetup) ∧
    (∀ mc : LoaderModelConfig, mc.model_type = "openai" →
        load_model_setup mc = some .OpenAIModelSetup) ∧
    (∀ mc : LoaderModelConfig, mc.model_type ≠ "fresh" →
        mc.model_type ≠ "hf" → mc.model_type ≠ "local" →
        mc.model_type ≠ "openai" → load_model_setup mc = none) ∧
    (∀ mc1 mc2 : LoaderModelConfig, mc1.model_type = mc2.model_type →
        load_model_setup mc1 = load_model_setup mc2) := by
  refine ⟨?_, ?_, ?_, ?_, ?_, ?_⟩
  · intro mc h; unfold load_model_setup; rw [h]; rfl
  · intro mc h; unfold load_model_setup; rw [h]; rfl
  · intro mc h; unfold load_model_setup; rw [h]; rfl
  · intro mc h; unfold load_model_setup; rw [h]; rfl
  · intro mc h1 h2 h3 h4
    unfold load_model_setup model_type_to_model_setup_mapping
    simp only [List.lookup, beq_eq_false_iff_ne.mpr h1, beq_eq_false_iff_ne.mpr h2,
      beq_eq_false_iff_ne.mpr h3, beq_eq_false_iff_ne.mpr h4]
  · intro mc1 mc2 h; unfold load_model_setup; rw [h]

/-- Closed witness for C8 at concrete configurations. -/
theorem load_model_setup_dispatch_witness :
    load_model_setup ⟨"xlm-roberta-base", "main", "fresh"⟩ =
        some .FreshModelSetup ∧
      load_model_setup ⟨"gpt-4", "main", "openai"⟩ = some .OpenAIModelSetup ∧
      load_model_setup ⟨"some-model", "main", "spacy"⟩ = none :=
  ⟨load_model_setup_dispatch.1 ⟨"xlm-roberta-base", "main", "fresh"⟩ rfl,
    load_model_setup_dispatch.2.2.2.1 ⟨"gpt-4", "main", "openai"⟩ rfl,
    load_model_setup_dispatch.2.2.2.2.1 ⟨"some-model", "main", "spacy"⟩
      (by decide) (by decide) (by decide) (by decide)⟩

/-- C9: for every model ID starting with "random", `get_model_config`
returns — independently of the hub, the language mapping, and connectivity,
so without contacting the hub — the hardcoded configuration with the input
ID unchanged, framework "pytorch", task "fill-mask", no languages, and
revision "main"; in particular an "@revision" suffix in such an ID is
neither stripped from the ID nor honoured as the revision. -/
theorem get_model_config_random (model_id : String)
    (api : Option String → String → Except Unit (List HubModel))
    (language_mapping : List (String × Language)) (internet : Bool)
    (h : strStartsWith model_id "random" = true) :
    get_model_config model_id api language_mapping internet =
      .ok { model_id := model_id, framework := "pytorch", task := "fill-mask",
            languages := [], revision := "main" } := by
  unfold get_model_config
  rw [if_pos h]

/-- Closed witness for C9: a random ID carrying an "@" suffix keeps it in
`model_id` and still gets revision "main", with a hub stub that always
fails (the hub is never consulted). -/
theorem get_model_config_random_witness :
    get_model_config "random-xlmr-base-sequence-clf@v2"
        (fun _ _ => .error ()) [] true =
      .ok { model_id := "random-xlmr-base-sequence-clf@v2",
            framework := "pytorch", task := "fill-mask",
            languages := [], revision := "main" } :=
  get_model_config_random "random-xlmr-base-sequence-clf@v2"
    (fun _ _ => .error ()) [] true (by decide)

/-! ### C10: the `get_model_lists` invariant -/

/-- Every entry of a list other than `"all"` also appears in the `"all"`
list. -/
def SubAll (d : String → List String) : Prop :=
  ∀ k, k ≠ "all" → ∀ x ∈ d k, x ∈ d "all"

theorem extendKey_same (d : String → List String) (k : String)
    (v : List String) : extendKey d k v k = d k ++ v := by
  unfold extendKey; rw [if_pos rfl]

theorem extendKey_other (d : String → List String) (k : String)
    (v : List String) {k2 : String} (h : k2 ≠ k) : extendKey d k v k2 = d k2 := by
  unfold extendKey; rw [if_neg h]

theorem setKey_same (d : String → List String) (k : String) (v : List String) :
    setKey d k v k = v := by
  unfold setKey; rw [if_pos rfl]

theorem setKey_other (d : String → List String) (k : String) (v : List String)
    {k2 : String} (h : k2 ≠ k) : setKey d k v k2 = d k2 := by
  unfold setKey; rw [if_neg h]

theorem subAll_empty : SubAll emptyModelLists := by
  intro k _ x hx
  exact absurd hx (List.not_mem_nil x)

/-- Extending only the `"all"` list preserves the invariant. -/
theorem subAll_extend_all {d : String → List String} (hd : SubAll d)
    (v : List String) : SubAll (extendKey d "all" v) := by
  intro k hk x hx
  rw [extendKey_other d "all" v hk] at hx
  rw [extendKey_same]
  exact List.mem_append_left _ (hd k hk x hx)

/-- Extending the `"all"` list and then some list `k` with the same ids
preserves the invariant (the fetch-loop update shape). -/
theorem subAll_extend_both {d : String → List String} (hd : SubAll d)
    (k : String) (v : List String) :
    SubAll (extendKey (extendKey d "all" v) k v) := by
  intro k2 hk2 x hx
  by_cases hka : k = "all"
  · subst hka
    rw [extendKey_other _ _ _ hk2, extendKey_other _ _ _ hk2] at hx
    rw [extendKey_same, extendKey_same]
    exact List.mem_append_left _ (List.mem_append_left _ (hd k2 hk2 x hx))
  · rw [extendKey_other _ _ _ (fun h => hka h.symm), extendKey_same]
    by_cases hkk : k2 = k
    · subst hkk
      rw [extendKey_same, extendKey_other _ _ _ hka] at hx
      rcases List.mem_append.mp hx with hx | hx
      · exact List.mem_append_left _ (hd k2 hka x hx)
      · exact List.mem_append_right _ hx
    · rw [extendKey_other _ _ _ hkk, extendKey_other _ _ _ hk2] at hx
      exact List.mem_append_left _ (hd k2 hk2 x hx)

/-- Extending some list `k ≠ "all"` and then the `"all"` list with the same
ids preserves the invariant (the hardcoded-addition update shape). -/
theorem subAll_extend_pair {d : String → List String} (hd : SubAll d)
    {k : String} (hk : k ≠ "all") (v : List String) :
    SubAll (extendKey (extendKey d k v) "all" v) := by
  intro k2 hk2 x hx
  rw [extendKey_other _ _ _ hk2] at hx
  rw [extendKey_same, extendKey_other _ _ _ (fun h => hk h.symm)]
  by_cases hkk : k2 = k
  · subst hkk
    rw [extendKey_same] at hx
    rcases List.mem_append.mp hx with hx | hx
    · exact List.mem_append_left _ (hd k2 hk x hx)
    · exact List.mem_append_right _ hx
  · rw [extendKey_other _ _ _ hkk] at hx
    exact List.mem_append_left _ (hd k2 hk2 x hx)

/-- Overwriting the `"multilingual"` list and extending `"all"` with the
same ids preserves the invariant. -/
theorem subAll_multilingual {d : String → List String} (hd : SubAll d)
    (v : List String) :
    SubAll (extendKey (setKey d "multilingual" v) "all" v) := by
  intro k2 hk2 x hx
  rw [extendKey_other _ _ _ hk2] at hx
  rw [extendKey_same, setKey_other _ _ _ (by decide)]
  by_cases hkm : k2 = "multilingual"
  · subst hkm
    rw [setKey_same] at hx
    exact List.mem_append_right _ hx
  · rw [setKey_other _ _ _ hkm] at hx
    exact List.mem_append_left _ (hd k2 hk2 x hx)

theorem modelListsLoop_subAll (api : Option Language → List HubModel) :
    ∀ (itr : List (Option Language)) (d : String → List String),
      SubAll d → SubAll (modelListsLoop api itr d) := by
  intro itr
  induction itr with
  | nil => intro d h; exact h
  | cons lang rest ih =>
    intro d h
    unfold modelListsLoop
    cases lang with
    | none => exact ih _ (subAll_extend_all h _)
    | some lang => exact ih _ (subAll_extend_both h lang.code _)

/-- The conditional hardcoded additions preserve the invariant. -/
theorem subAll_ite {d : String → List String} (hd : SubAll d) (c : Prop)
    [Decidable c] {k : String} (hk : k ≠ "all") (v : List String) :
    SubAll (if c then extendKey (extendKey d k v) "all" v else d) := by
  split
  · exact subAll_extend_pair hd hk v
  · exact hd

theorem postLoopAdditions_subAll (itr : List (Option Language))
    {d : String → List String} (hd : SubAll d) :
    SubAll (postLoopAdditions itr d) := by
  unfold postLoopAdditions
  dsimp only
  exact subAll_ite
    (subAll_ite
      (subAll_ite
        (subAll_extend_pair (subAll_multilingual hd multi_models)
          (k := "random") (by decide) random_models)
        _ (k := "da") (by decide) multi_da_models)
      _ (k := "sv") (by decide) multi_sv_models)
    _ (k := "no") (by decide) multi_no_models

/-- C10: in the dictionary `get_model_lists` returns, every model ID in any
list other than `"all"` (per-language, `"multilingual"`, `"random"`) also
appears in the `"all"` list, and every list is free of duplicates. -/
theorem get_model_lists_invariant (api : Option Language → List HubModel)
    (all_languages : List Language) (languages : Option (List Language)) :
    (∀ key, key ≠ "all" →
        ∀ id ∈ get_model_lists api all_languages languages key,
          id ∈ get_model_lists api all_languages languages "all") ∧
      ∀ key, (get_model_lists api all_languages languages key).Nodup := by
  have hsub : SubAll (modelListsDict api all_languages languages) :=
    postLoopAdditions_subAll _
      (modelListsLoop_subAll api _ _ subAll_empty)
  constructor
  · intro key hkey id hid
    unfold get_model_lists at hid ⊢
    rw [List.mem_dedup] at hid ⊢
    exact hsub key hkey id hid
  · intro key
    exact List.nodup_dedup _

/-- Closed witness for C10's containment part: with an empty hub, a random
model ID listed under `"random"` is also in `"all"`. -/
theorem get_model_lists_invariant_witness :
    "random-xlmr-base-token-clf" ∈
      get_model_lists (fun _ => []) [DA] none "all" :=
  (get_model_lists_invariant (fun _ => []) [DA] none).1 "random" (by decide)
    "random-xlmr-base-token-clf" (by decide)

end ScandEval
